import Mathlib

/-!
# Verification of the Offline Queue & Sync Engine core

Shallow embedding of the offline message queue, sync loop, retry helper and
encryption layer of the messaging client, together with proofs and refutations
of the specified properties.

Conventions of the embedding:
* `AsyncStorage` (an atomic per-key durable key-value store) is modelled by
  passing the parsed value stored under the relevant key explicitly.  A read
  that may throw is an `Except Unit (Option _)` (`.error` = the read threw,
  `.ok none` = the key is absent).  A write that may throw is driven by a
  `writeOk : Bool` fault flag.
* `async/await` code with no interleaving relevant to a claim is embedded as
  sequential state passing.
* Unimplemented stub bodies (the contract submission and the cipher core) are
  modelled from the spec where a claim needs them; such definitions carry a
  `Modelled from the spec:` doc comment.
-/

/-- The `Message` domain entity (src/types, `part_008`): id, sender, recipient,
content (ciphertext at this layer) and a client-clock timestamp. -/
structure Message where
  id : String
  sender : String
  recipient : String
  content : String
  timestamp : Nat
deriving Repr, DecidableEq

namespace OfflineStorage

/-- `OfflineStorage.getPendingMessages` (src/src/services/OfflineStorage.ts):
reads the `pendingMessages` key and parses it; the surrounding `try/catch`
turns a throwing read (or unparsable value) into `[]`, and an absent key also
yields `[]`.  The argument is the outcome of the durable read. -/
def getPendingMessages (read : Except Unit (Option (List Message))) : List Message :=
  match read with
  | .error _ => []
  | .ok none => []
  | .ok (some l) => l

/-- `OfflineStorage.storeMessage` (src/src/services/OfflineStorage.ts): reads
the pending list via `getPendingMessages`, pushes the new message at the end
and writes the whole list back before returning; a write failure is logged and
rethrown (`throw error`), so the call fails.  `read` is the outcome of the
durable read, `writeOk` whether the durable write succeeds; the result is the
new durable value under `pendingMessages`, or the propagated error. -/
def storeMessage (m : Message) (read : Except Unit (Option (List Message)))
    (writeOk : Bool) : Except Unit (List Message) :=
  let pending := getPendingMessages read
  if writeOk then Except.ok (pending ++ [m]) else Except.error ()

end OfflineStorage

/-- A `QueuedMessage` of the `MessageQueue` module (`part_012`):
id, recipient, content, timestamp. -/
structure QueuedMessage where
  id : String
  recipient : String
  content : String
  timestamp : Nat
deriving Repr, DecidableEq

/-- State of the `MessageQueue` singleton (`part_012`): the in-memory `queue`
array, the `isProcessing` flag, and the durable copy `stored` kept under the
`messageQueue` key by `saveQueue`. -/
structure MQState where
  queue : List QueuedMessage
  isProcessing : Bool
  stored : List QueuedMessage
deriving Repr, DecidableEq

namespace MessageQueue

/-- `MessageQueue.saveQueue` (`part_012`): writes the in-memory queue to
durable storage; a write failure is caught and only logged (`console.error`),
never rethrown, so the function always completes and on failure the durable
copy is simply left as it was. -/
def saveQueue (st : MQState) (writeOk : Bool) : MQState :=
  if writeOk then { st with stored := st.queue } else st

/-- The `while` loop of `MessageQueue.processQueue` (`part_012`): repeatedly
take the head of the queue, call `sendMessage` on it, and on success `shift`
it off and `saveQueue`; the `catch` around the body does `break`, so the first
failing send ends the pass with the queue unchanged from that point.
`sendOk` gives the outcome of each `sendMessage` call (the body of
`sendMessage` is an unimplemented stub; per the spec the Ledger submission may
throw).  Arguments: the current queue and the current durable copy.  Returns
(final queue, final durable copy, messages passed to `sendMessage`, in order).
-/
def drain (sendOk : QueuedMessage → Bool) (writeOk : Bool) :
    List QueuedMessage → List QueuedMessage →
    List QueuedMessage × List QueuedMessage × List QueuedMessage
  | [], stored => ([], stored, [])
  | m :: rest, stored =>
    if sendOk m then
      let r := drain sendOk writeOk rest (if writeOk then rest else stored)
      (r.1, r.2.1, m :: r.2.2)
    else (m :: rest, stored, [m])

/-- `MessageQueue.processQueue` (`part_012`): returns immediately when
`isProcessing` is already set or the queue is empty; returns when offline;
otherwise sets `isProcessing`, drains the queue head-first until it is empty
or a send fails, and clears `isProcessing`.  Returns the new state and the
list of messages passed to `sendMessage` during the pass. -/
def processQueue (sendOk : QueuedMessage → Bool) (online writeOk : Bool)
    (st : MQState) : MQState × List QueuedMessage :=
  if st.isProcessing || st.queue.isEmpty then (st, [])
  else if !online then (st, [])
  else
    let r := drain sendOk writeOk st.queue st.stored
    (⟨r.1, false, r.2.1⟩, r.2.2)

/-- `MessageQueue.addToQueue` (`part_012`): pushes the message onto the
in-memory queue, calls `saveQueue` (whose write failure is swallowed) and then
triggers `processQueue`.  The function has no failure path: it always returns
a state. -/
def addToQueue (m : QueuedMessage) (st : MQState) (writeOk online : Bool)
    (sendOk : QueuedMessage → Bool) : MQState × List QueuedMessage :=
  let st1 : MQState := { st with queue := st.queue ++ [m] }
  let st2 := saveQueue st1 writeOk
  processQueue sendOk online writeOk st2

end MessageQueue

namespace OfflineStorage

/-- The `for … of pendingMessages` loop of `OfflineStorage.syncMessages`
(src/src/services/OfflineStorage.ts): iterates over the snapshot of pending
messages read at the start of the pass; for each one, calls
`sendMessageToContract` and on success `removePendingMessage(id)` (which
rewrites the durable list filtered by id); a failure is caught, logged and the
loop continues with the next entry.  `sendOk` gives the outcome of each
submission (the body of `sendMessageToContract` is an unimplemented stub; per
the spec the Ledger submission may throw).  Arguments: the current durable
list and the remaining snapshot.  Returns (final durable list, messages
passed to `sendMessageToContract`, in order). -/
def syncStep (sendOk : Message → Bool) :
    List Message → List Message → List Message × List Message
  | stored, [] => (stored, [])
  | stored, m :: rest =>
    if sendOk m then
      let r := syncStep sendOk (stored.filter (fun x => x.id ≠ m.id)) rest
      (r.1, m :: r.2)
    else
      let r := syncStep sendOk stored rest
      (r.1, m :: r.2)

/-- `OfflineStorage.syncMessages` (src/src/services/OfflineStorage.ts):
returns immediately when offline, otherwise reads the pending snapshot and
runs the sync loop over it.  `stored` is the durable pending list (read
assumed successful); returns the new durable list and the submission
attempts. -/
def syncMessages (online : Bool) (sendOk : Message → Bool)
    (stored : List Message) : List Message × List Message :=
  if !online then (stored, []) else syncStep sendOk stored stored

end OfflineStorage

namespace ErrorHandling

/-- The retry loop of `withRetry` (src/src/utils/ErrorHandling.ts), with the
attempt counter and the remaining number of attempts made explicit
(`remaining` starts at `retryAttempts`, `attempt` at 0).  `op attempt` is the
outcome of the guarded operation on that attempt; on a failure that
`shouldRetry` accepts and with attempts left (`attempt < retryAttempts - 1`),
the loop sleeps `retryDelay * (attempt + 1)` milliseconds and retries; on a
non-retryable failure it breaks; when the budget is exhausted the last error
is thrown.  Returns the overall outcome and the list of sleep durations, in
order.  With `remaining = 0` (a zero `retryAttempts` budget) the source
throws the uninitialised `lastError!`; modelled as `.error none`. -/
def withRetryGo (op : Nat → Except String α) (shouldRetry : String → Bool)
    (retryDelay : Nat) :
    Nat → Nat → Except (Option String) α × List Nat
  | _, 0 => (.error none, [])
  | attempt, remaining + 1 =>
    match op attempt with
    | .ok a => (.ok a, [])
    | .error e =>
      if shouldRetry e then
        if remaining = 0 then (.error (some e), [])
        else
          let r := withRetryGo op shouldRetry retryDelay (attempt + 1) remaining
          (r.1, retryDelay * (attempt + 1) :: r.2)
      else (.error (some e), [])

/-- `withRetry` (src/src/utils/ErrorHandling.ts) with the configuration fields
it actually uses (`retryAttempts`, `retryDelay`, `shouldRetry`) passed
explicitly; starts the loop at attempt 0 with the full budget. -/
def withRetry (op : Nat → Except String α) (retryAttempts retryDelay : Nat)
    (shouldRetry : String → Bool) : Except (Option String) α × List Nat :=
  withRetryGo op shouldRetry retryDelay 0 retryAttempts

end ErrorHandling

namespace Encryption

/-- Group modulus for the key-agreement model (stands in for the secp256k1
group order used by `EncryptionService` in src/src/services/Encryption.ts). -/
def groupP : Nat := 2147483647

/-- Group generator for the key-agreement model. -/
def groupG : Nat := 7

/-- Public key derived from a private exponent, as in
`EncryptionService.generateKeyPair` (src/src/services/Encryption.ts): the
public key is the group generator raised to the private key, here in the
multiplicative group modulo `groupP` (modular exponentiation stands in for
secp256k1 scalar multiplication, which has the same algebra). -/
def derivePublic (priv : Nat) : Nat := groupG ^ priv % groupP

/-- Diffie-Hellman shared-secret derivation, as in the `ephemeral.derive(…)`
call of `EncryptionService.encryptMessage` (src/src/services/Encryption.ts):
the counterpart's public key raised to one's own private key. -/
def deriveShared (priv pubOther : Nat) : Nat := pubOther ^ priv % groupP

/-- A ciphertext: the ephemeral public key (needed by the recipient to
recompute the shared secret) together with the encrypted body, one masked
unit per plaintext unit. -/
structure Ciphertext where
  ephemeralPub : Nat
  body : List Nat
deriving Repr, DecidableEq

/-- Keystream cipher: masks the `i`-th plaintext unit with `ks i` by XOR.
XOR is an involution, so applying the same keystream twice restores the
input. -/
def xorStream (ks : Nat → Nat) : Nat → List Nat → List Nat
  | _, [] => []
  | i, b :: rest => (b ^^^ ks i) :: xorStream ks (i + 1) rest

/-- Modelled from the spec: the body of
`EncryptionService.encryptMessage` (src/src/services/Encryption.ts) after the
shared-secret derivation is an unimplemented stub (`// Implementiere hier die
eigentliche Verschlüsselung`; the returned `encrypted` is undefined).  Per
§4.1 of the spec, `encrypt` derives a shared secret from a fresh ephemeral
key and the recipient's public key, derives symmetric key material from it
(`kdf`, standing in for keccak256 keyed by the shared secret), and encrypts
the plaintext under it; the ephemeral public key is carried in the
ciphertext. -/
def encryptMessage (kdf : Nat → Nat → Nat) (plaintext : List Nat)
    (recipientPub : Nat) (eph : Nat) : Ciphertext :=
  let shared := deriveShared eph recipientPub
  { ephemeralPub := derivePublic eph
    body := xorStream (kdf shared) 0 plaintext }

/-- Modelled from the spec: the body of
`EncryptionService.decryptMessage` (src/src/services/Encryption.ts) is an
unimplemented stub (`// Implementiere hier die Entschlüsselung`).  Per §4.1
of the spec, `decrypt(ciphertext, ownPrivateKey)` recomputes the shared
secret from the ciphertext's ephemeral public key and the recipient's private
key and inverts the symmetric encryption. -/
def decryptMessage (kdf : Nat → Nat → Nat) (c : Ciphertext) (priv : Nat) :
    List Nat :=
  let shared := deriveShared priv c.ephemeralPub
  xorStream (kdf shared) 0 c.body

end Encryption

/-- Modelled from the spec: the body of
`OfflineStorage.sendMessageToContract` (src/src/services/OfflineStorage.ts) is
an unimplemented stub (`// Implementierung der Contract-Interaktion`).  Per §6
of the spec the Ledger is append-only: each successful `submit` appends the
message to the history, so the history after a sync pass is the prior history
followed by the pass's successful submissions in order. -/
def ledgerAfterPass (prior submitted : List Message) : List Message :=
  prior ++ submitted

/-- Sample message, id "a", timestamp 100. -/
def msgA : Message := ⟨"a", "alice", "bob", "ca", 100⟩

/-- Sample message, id "b", timestamp 200. -/
def msgB : Message := ⟨"b", "alice", "bob", "cb", 200⟩

/-- Sample message with timestamp 200, enqueued first in the C5 scenario. -/
def msgT200 : Message := ⟨"m200", "alice", "bob", "c200", 200⟩

/-- Sample message with timestamp 100, enqueued second in the C5 scenario. -/
def msgT100 : Message := ⟨"m100", "alice", "bob", "c100", 100⟩

/-- Sample message with timestamp 150. -/
def msgT150 : Message := ⟨"m150", "alice", "bob", "c150", 150⟩

/-- m1 of the ordering scenario: same sender/recipient as `msg2`, t=100. -/
def msg1 : Message := ⟨"m1", "alice", "bob", "c1", 100⟩

/-- m2 of the ordering scenario: same sender/recipient as `msg1`, t=200. -/
def msg2 : Message := ⟨"m2", "alice", "bob", "c2", 200⟩

/-- A message already accepted by the Ledger but still in the pending store
(crash between acknowledgment and removal). -/
def mdup : Message := ⟨"dup", "alice", "bob", "cdup", 100⟩

/-- Three pending messages for the partial-failure scenario. -/
def ma : Message := ⟨"ma", "alice", "bob", "cma", 10⟩

/-- Second of the three pending messages; its submission fails. -/
def mb : Message := ⟨"mb", "alice", "bob", "cmb", 20⟩

/-- Third of the three pending messages. -/
def mc : Message := ⟨"mc", "alice", "bob", "cmc", 30⟩

/-- Submission outcome for the partial-failure scenario: only `mb` fails. -/
def sendOkNotMb (m : Message) : Bool := m.id != "mb"

/-- Three queued messages for the MessageQueue partial-failure scenario. -/
def q1 : QueuedMessage := ⟨"q1", "bob", "c1", 10⟩

/-- Second queued message; its submission fails. -/
def q2 : QueuedMessage := ⟨"q2", "bob", "c2", 20⟩

/-- Third queued message. -/
def q3 : QueuedMessage := ⟨"q3", "bob", "c3", 30⟩

/-- Submission outcome for the MessageQueue scenario: only `q2` fails. -/
def sendOkNotQ2 (q : QueuedMessage) : Bool := q.id != "q2"

/-- A queued message for the durable-write-failure scenario. -/
def q0 : QueuedMessage := ⟨"q0", "bob", "c0", 5⟩

/-- Submission outcome for the ordering scenario: only `msg1` fails. -/
def sendOkNotM1 (m : Message) : Bool := m.id != "m1"

/-! ## Helper lemmas -/

/-- A sync pass of `OfflineStorage.syncMessages` attempts every entry of the
snapshot it iterates over, in order, regardless of per-entry outcomes. -/
theorem syncStep_attempts (sendOk : Message → Bool) :
    ∀ (pending stored : List Message),
      (OfflineStorage.syncStep sendOk stored pending).2 = pending := by
  intro pending
  induction pending with
  | nil => intro stored; rfl
  | cons m rest ih =>
    intro stored
    unfold OfflineStorage.syncStep
    cases h : sendOk m <;> simp [h, ih]

/-- The sync loop only ever filters the durable list, so the final durable
list is a sublist of the one it started from. -/
theorem syncStep_subset (sendOk : Message → Bool) :
    ∀ (pending stored : List Message) (x : Message),
      x ∈ (OfflineStorage.syncStep sendOk stored pending).1 → x ∈ stored := by
  intro pending
  induction pending with
  | nil => intro stored x hx; exact hx
  | cons m rest ih =>
    intro stored x hx
    unfold OfflineStorage.syncStep at hx
    cases h : sendOk m with
    | true =>
      simp only [h, if_true] at hx
      exact List.mem_of_mem_filter (ih _ x hx)
    | false =>
      simp only [h, Bool.false_eq_true, if_false] at hx
      exact ih _ x hx

/-- Every snapshot entry whose submission succeeds is removed from the
durable list by the end of the pass: no entry with its id survives. -/
theorem syncStep_removes (sendOk : Message → Bool) (m : Message)
    (hok : sendOk m = true) :
    ∀ (pending stored : List Message), m ∈ pending →
      ∀ x ∈ (OfflineStorage.syncStep sendOk stored pending).1, x.id ≠ m.id := by
  intro pending
  induction pending with
  | nil => intro stored hm; cases hm
  | cons hd tl ih =>
    intro stored hm x hx
    rcases List.mem_cons.mp hm with heq | hmem
    · subst heq
      unfold OfflineStorage.syncStep at hx
      simp only [hok, if_true] at hx
      have hmem' := syncStep_subset sendOk tl _ x hx
      have := List.mem_filter.mp hmem'
      simpa using this.2
    · unfold OfflineStorage.syncStep at hx
      cases h : sendOk hd with
      | true => simp only [h, if_true] at hx; exact ih _ hmem x hx
      | false =>
        simp only [h, Bool.false_eq_true, if_false] at hx
        exact ih _ hmem x hx

/-- Characterisation of the `MessageQueue.processQueue` drain loop: it leaves
exactly the suffix starting at the first failing entry, and the messages
passed to `sendMessage` are the longest successful prefix followed by the
first failing entry, if any. -/
theorem drain_spec (sendOk : QueuedMessage → Bool) (writeOk : Bool) :
    ∀ (q stored : List QueuedMessage),
      (MessageQueue.drain sendOk writeOk q stored).1 = q.dropWhile sendOk ∧
      (MessageQueue.drain sendOk writeOk q stored).2.2 =
        q.takeWhile sendOk ++ (q.dropWhile sendOk).take 1 := by
  intro q
  induction q with
  | nil => intro stored; exact ⟨rfl, rfl⟩
  | cons m rest ih =>
    intro stored
    unfold MessageQueue.drain
    cases h : sendOk m with
    | true =>
      simp [List.dropWhile_cons, List.takeWhile_cons, h, ih]
    | false =>
      simp [List.dropWhile_cons, List.takeWhile_cons, h]

/-- The sleep schedule of `withRetry` when every attempt fails with a
retryable error: the delays are `retryDelay * (attempt+1)` for the first
`remaining - 1` attempt indices, i.e. a linear ramp. -/
theorem withRetryGo_sleeps (d : Nat) :
    ∀ (remaining attempt : Nat),
      (ErrorHandling.withRetryGo (fun _ => (Except.error "e" : Except String Unit))
          (fun _ => true) d attempt remaining).2 =
        (List.range' (attempt + 1) (remaining - 1)).map (fun k => d * k) := by
  intro remaining
  induction remaining with
  | zero => intro attempt; rfl
  | succ r ih =>
    intro attempt
    unfold ErrorHandling.withRetryGo
    by_cases hr : r = 0
    · subst hr; rfl
    · obtain ⟨r', rfl⟩ : ∃ r', r = r' + 1 := ⟨r - 1, by omega⟩
      simp only [hr, if_false, Nat.succ_sub_one]
      rw [ih (attempt + 1), List.range'_succ]
      simp [List.map_cons]

/-- When every durable write fails, the drain loop never changes the durable
copy of the queue (each `saveQueue` failure is swallowed). -/
theorem drain_stored_false (sendOk : QueuedMessage → Bool) :
    ∀ (q stored : List QueuedMessage),
      (MessageQueue.drain sendOk false q stored).2.1 = stored := by
  intro q
  induction q with
  | nil => intro stored; rfl
  | cons m rest ih =>
    intro stored
    unfold MessageQueue.drain
    cases h : sendOk m <;> simp [h, ih]

/-- When every durable write fails, `processQueue` completes and leaves the
durable copy of the queue exactly as it was. -/
theorem processQueue_stored_false (sendOk : QueuedMessage → Bool)
    (online : Bool) (st : MQState) :
    (MessageQueue.processQueue sendOk online false st).1.stored = st.stored := by
  unfold MessageQueue.processQueue
  by_cases h1 : st.isProcessing || st.queue.isEmpty
  · simp [h1]
  · by_cases h2 : online
    · simp [h1, h2, drain_stored_false]
    · simp [h1, h2]

/-- The Diffie-Hellman algebra: the shared secret derived from one's own
private key and the counterpart's public key is symmetric in the two key
pairs. -/
theorem deriveShared_comm (a b : Nat) :
    Encryption.deriveShared a (Encryption.derivePublic b) =
      Encryption.deriveShared b (Encryption.derivePublic a) := by
  unfold Encryption.deriveShared Encryption.derivePublic
  rw [← Nat.pow_mod, ← Nat.pow_mod, ← pow_mul, ← pow_mul, Nat.mul_comm]

/-- The keystream cipher is an involution: masking twice with the same
keystream restores the input. -/
theorem xorStream_involutive (ks : Nat → Nat) :
    ∀ (i : Nat) (l : List Nat),
      Encryption.xorStream ks i (Encryption.xorStream ks i l) = l := by
  intro i l
  induction l generalizing i with
  | nil => rfl
  | cons b rest ih =>
    simp only [Encryption.xorStream, ih]
    rw [Nat.xor_assoc, Nat.xor_self, Nat.xor_zero]

/-! ## Claim theorems -/

/-- C2: after `storeMessage m` (enqueue) returns successfully with durable
value `s'`, a fresh read of durable storage (a simulated process restart) via
`getPendingMessages` includes `m`, and every entry that was pending before
the enqueue is still present. -/
theorem storeMessage_durable (m : Message)
    (read : Except Unit (Option (List Message))) (writeOk : Bool)
    (s' : List Message)
    (h : OfflineStorage.storeMessage m read writeOk = Except.ok s') :
    m ∈ OfflineStorage.getPendingMessages (Except.ok (some s')) ∧
      ∀ x ∈ OfflineStorage.getPendingMessages read,
        x ∈ OfflineStorage.getPendingMessages (Except.ok (some s')) := by
  unfold OfflineStorage.storeMessage at h
  cases hw : writeOk with
  | false => rw [hw] at h; simp at h
  | true =>
    rw [hw] at h
    simp only [if_true, Except.ok.injEq] at h
    subst h
    refine ⟨?_, ?_⟩
    · simp [OfflineStorage.getPendingMessages]
    · intro x hx
      simp only [OfflineStorage.getPendingMessages]
      exact List.mem_append_left _ hx

/-- Witness for C2 at a concrete input: enqueuing `msgB` on a store holding
`[msgA]` succeeds with durable value `[msgA, msgB]`, which contains `msgB`
and still contains everything previously pending. -/
theorem storeMessage_durable_witness :
    OfflineStorage.storeMessage msgB (Except.ok (some [msgA])) true =
        Except.ok [msgA, msgB] ∧
      (msgB ∈ OfflineStorage.getPendingMessages (Except.ok (some [msgA, msgB])) ∧
        ∀ x ∈ OfflineStorage.getPendingMessages (Except.ok (some [msgA])),
          x ∈ OfflineStorage.getPendingMessages (Except.ok (some [msgA, msgB]))) :=
  ⟨rfl, storeMessage_durable msgB (Except.ok (some [msgA])) true [msgA, msgB] rfl⟩

/-- C7: for every plaintext, every key pair `(priv, derivePublic priv)`,
every ephemeral key and every key-derivation function, decrypting the result
of encrypting under the public key with the matching private key returns the
plaintext. -/
theorem encrypt_decrypt_roundtrip (kdf : Nat → Nat → Nat)
    (plaintext : List Nat) (priv eph : Nat) :
    Encryption.decryptMessage kdf
        (Encryption.encryptMessage kdf plaintext (Encryption.derivePublic priv) eph)
        priv
      = plaintext := by
  unfold Encryption.decryptMessage Encryption.encryptMessage
  simp only []
  rw [deriveShared_comm priv eph]
  exact xorStream_involutive _ 0 plaintext

/-- C8: a trigger of `processQueue` while a pass is already in progress (the
`isProcessing` flag is set) is coalesced: it returns immediately, submits no
entry and leaves the whole queue state (in-memory queue and durable copy)
unchanged. -/
theorem processQueue_second_trigger_coalesced
    (sendOk : QueuedMessage → Bool) (online writeOk : Bool) (st : MQState)
    (h : st.isProcessing = true) :
    MessageQueue.processQueue sendOk online writeOk st = (st, []) := by
  unfold MessageQueue.processQueue
  simp [h]

/-- Witness for C8 at a concrete input: with a pass in progress and a
non-empty queue, a second online trigger returns the state untouched and
submits nothing. -/
theorem processQueue_second_trigger_coalesced_witness :
    (MQState.mk [q1] true [q1]).isProcessing = true ∧
      MessageQueue.processQueue (fun _ => true) true true ⟨[q1], true, [q1]⟩ =
        (⟨[q1], true, [q1]⟩, []) :=
  ⟨rfl, processQueue_second_trigger_coalesced (fun _ => true) true true _ rfl⟩

/-- C10: `getPendingMessages` is total at its public interface: for every
read outcome it returns a list — the stored one when the read succeeds on a
present key, and `[]` when the read throws or the key is absent; in
particular an unreadable store is indistinguishable from an empty one. -/
theorem getPendingMessages_total_on_failure :
    (∀ read, OfflineStorage.getPendingMessages read = [] ∨
        ∃ l, read = Except.ok (some l) ∧
          OfflineStorage.getPendingMessages read = l) ∧
      OfflineStorage.getPendingMessages (Except.error ()) = [] ∧
      OfflineStorage.getPendingMessages (Except.ok none) = [] ∧
      OfflineStorage.getPendingMessages (Except.error ()) =
        OfflineStorage.getPendingMessages (Except.ok (some [])) := by
  refine ⟨?_, rfl, rfl, rfl⟩
  intro read
  match read with
  | .error _ => exact Or.inl rfl
  | .ok none => exact Or.inl rfl
  | .ok (some l) => exact Or.inr ⟨l, rfl, rfl⟩

/-- C1 counterexample: with the Ledger already holding `mdup` (acknowledged
before a crash) and `mdup` still in the pending store (not yet removed), the
next sync pass submits `mdup` again — no idempotency check against Ledger
history happens — so the Ledger holds the message twice, not exactly once. -/
theorem sync_pass_resubmits_delivered :
    (OfflineStorage.syncMessages true (fun _ => true) [mdup]).2 = [mdup] ∧
      (ledgerAfterPass [mdup]
          (OfflineStorage.syncMessages true (fun _ => true) [mdup]).2).count mdup
        = 2 := by
  decide

/-- C1 amended: a sync pass submits every still-pending entry
unconditionally; a message already accepted by the Ledger whose entry was not
yet removed from the pending store is submitted a second time, so the Ledger
history ends up containing it at least twice. -/
theorem sync_pass_duplicates_ledger_entry (m : Message)
    (prior stored : List Message) (hp : m ∈ prior) (hs : m ∈ stored) :
    2 ≤ (ledgerAfterPass prior
        (OfflineStorage.syncMessages true (fun _ => true) stored).2).count m := by
  unfold ledgerAfterPass OfflineStorage.syncMessages
  simp only [Bool.not_true, Bool.false_eq_true, if_false]
  rw [syncStep_attempts, List.count_append]
  have h1 : 0 < prior.count m := List.count_pos_iff.mpr hp
  have h2 : 0 < stored.count m := List.count_pos_iff.mpr hs
  omega

/-- Witness for the amended C1 at a concrete input. -/
theorem sync_pass_duplicates_ledger_entry_witness :
    (mdup ∈ [mdup, msgA] ∧ mdup ∈ [mdup, msgB]) ∧
      2 ≤ (ledgerAfterPass [mdup, msgA]
          (OfflineStorage.syncMessages true (fun _ => true) [mdup, msgB]).2).count
            mdup :=
  ⟨⟨by decide, by decide⟩,
    sync_pass_duplicates_ledger_entry mdup [mdup, msgA] [mdup, msgB]
      (by decide) (by decide)⟩

/-- C3 counterexample: in `MessageQueue.processQueue`, with three pending
entries where the second's submission throws, the loop `break`s at the
failure: the third entry is not submitted in that pass and stays queued. -/
theorem processQueue_halts_on_failure :
    MessageQueue.processQueue sendOkNotQ2 true true
          ⟨[q1, q2, q3], false, [q1, q2, q3]⟩
        = (⟨[q2, q3], false, [q2, q3]⟩, [q1, q2]) ∧
      q3 ∉ (MessageQueue.processQueue sendOkNotQ2 true true
          ⟨[q1, q2, q3], false, [q1, q2, q3]⟩).2 := by
  decide

/-- C3 amended: in `OfflineStorage.syncMessages` a single entry's failure
does not halt the pass — every pending entry is attempted, and every entry
whose submission succeeds is removed from the durable queue; in
`MessageQueue.processQueue` the pass instead stops at the first failure. -/
theorem syncMessages_partial_failure_isolation (sendOk : Message → Bool)
    (stored : List Message) (m : Message)
    (hm : m ∈ stored) (hok : sendOk m = true) :
    (OfflineStorage.syncMessages true sendOk stored).2 = stored ∧
      ∀ x ∈ (OfflineStorage.syncMessages true sendOk stored).1, x.id ≠ m.id := by
  unfold OfflineStorage.syncMessages
  simp only [Bool.not_true, Bool.false_eq_true, if_false]
  exact ⟨syncStep_attempts sendOk stored stored,
    syncStep_removes sendOk m hok stored stored hm⟩

/-- Witness for the amended C3 at a concrete input: three pending entries,
the second failing; all three are attempted and the third (successful) is
removed. -/
theorem syncMessages_partial_failure_isolation_witness :
    (mc ∈ [ma, mb, mc] ∧ sendOkNotMb mc = true) ∧
      ((OfflineStorage.syncMessages true sendOkNotMb [ma, mb, mc]).2
          = [ma, mb, mc] ∧
        ∀ x ∈ (OfflineStorage.syncMessages true sendOkNotMb [ma, mb, mc]).1,
          x.id ≠ mc.id) :=
  ⟨⟨by decide, by decide⟩,
    syncMessages_partial_failure_isolation sendOkNotMb [ma, mb, mc] mc
      (by decide) (by decide)⟩

/-- C4 counterexample: in `OfflineStorage.syncMessages`, with `msg1` (t=100)
and `msg2` (t=200) pending from the same sender to the same recipient and
`msg1`'s submission failing, the same pass still attempts `msg2` — whose
submission succeeds and is removed — so `msg2` does not wait for `msg1`. -/
theorem syncMessages_submits_later_despite_earlier_failure :
    sendOkNotM1 msg1 = false ∧
      (OfflineStorage.syncMessages true sendOkNotM1 [msg1, msg2]).2
        = [msg1, msg2] ∧
      (OfflineStorage.syncMessages true sendOkNotM1 [msg1, msg2]).1 = [msg1] := by
  decide

/-- C4 amended: `MessageQueue.processQueue` does submit in queue (creation)
order and makes later entries wait: a pass attempts the longest successful
prefix plus the first failing entry, and leaves exactly the suffix from the
first failure queued in order; `OfflineStorage.syncMessages`, by contrast,
proceeds to later entries in the same pass even when an earlier entry's
submission failed. -/
theorem processQueue_fifo_head_first (sendOk : QueuedMessage → Bool)
    (writeOk : Bool) (q stored : List QueuedMessage) :
    (MessageQueue.processQueue sendOk true writeOk ⟨q, false, stored⟩).1.queue
        = q.dropWhile sendOk ∧
      (MessageQueue.processQueue sendOk true writeOk ⟨q, false, stored⟩).2
        = q.takeWhile sendOk ++ (q.dropWhile sendOk).take 1 := by
  unfold MessageQueue.processQueue
  cases q with
  | nil => simp
  | cons m rest =>
    simp only [List.isEmpty_cons, Bool.false_or, Bool.not_true,
      Bool.false_eq_true, if_false]
    exact ⟨(drain_spec sendOk writeOk (m :: rest) stored).1,
      (drain_spec sendOk writeOk (m :: rest) stored).2⟩

/-- C5 counterexample: enqueuing a message with timestamp 200 and then one
with timestamp 100 leaves `getPendingMessages` returning them in insertion
order `[t=200, t=100]`, which is not ascending by timestamp. -/
theorem getPendingMessages_not_timestamp_sorted :
    OfflineStorage.storeMessage msgT200 (Except.ok none) true
        = Except.ok [msgT200] ∧
      OfflineStorage.storeMessage msgT100 (Except.ok (some [msgT200])) true
        = Except.ok [msgT200, msgT100] ∧
      OfflineStorage.getPendingMessages (Except.ok (some [msgT200, msgT100]))
        = [msgT200, msgT100] ∧
      ¬ List.Pairwise (fun a b : Message => a.timestamp ≤ b.timestamp)
          [msgT200, msgT100] := by
  refine ⟨rfl, rfl, rfl, ?_⟩
  decide

/-- C5 amended: `getPendingMessages` returns entries in insertion (enqueue)
order — `storeMessage` appends at the end and no sorting is performed — so
the result is ascending by timestamp exactly when the messages were enqueued
in timestamp order: if the stored list is ascending and the new message's
timestamp is no smaller than every stored one, the list after the enqueue is
still ascending. -/
theorem storeMessage_appends_in_enqueue_order (m : Message)
    (read : Except Unit (Option (List Message)))
    (h1 : List.Pairwise (fun a b : Message => a.timestamp ≤ b.timestamp)
      (OfflineStorage.getPendingMessages read))
    (h2 : ∀ x ∈ OfflineStorage.getPendingMessages read,
      x.timestamp ≤ m.timestamp) :
    OfflineStorage.storeMessage m read true =
        Except.ok (OfflineStorage.getPendingMessages read ++ [m]) ∧
      List.Pairwise (fun a b : Message => a.timestamp ≤ b.timestamp)
        (OfflineStorage.getPendingMessages read ++ [m]) := by
  refine ⟨rfl, ?_⟩
  rw [List.pairwise_append]
  refine ⟨h1, List.pairwise_singleton _ _, ?_⟩
  intro a ha b hb
  rw [List.mem_singleton] at hb
  subst hb
  exact h2 a ha

/-- Witness for the amended C5 at a concrete input. -/
theorem storeMessage_appends_in_enqueue_order_witness :
    (List.Pairwise (fun a b : Message => a.timestamp ≤ b.timestamp)
        (OfflineStorage.getPendingMessages (Except.ok (some [msgT100]))) ∧
      ∀ x ∈ OfflineStorage.getPendingMessages (Except.ok (some [msgT100])),
        x.timestamp ≤ msgT150.timestamp) ∧
      (OfflineStorage.storeMessage msgT150 (Except.ok (some [msgT100])) true =
          Except.ok (OfflineStorage.getPendingMessages
            (Except.ok (some [msgT100])) ++ [msgT150]) ∧
        List.Pairwise (fun a b : Message => a.timestamp ≤ b.timestamp)
          (OfflineStorage.getPendingMessages
            (Except.ok (some [msgT100])) ++ [msgT150])) :=
  ⟨⟨by decide, by decide⟩,
    storeMessage_appends_in_enqueue_order msgT150 (Except.ok (some [msgT100]))
      (by decide) (by decide)⟩

/-- C6 counterexample: `MessageQueue.addToQueue` with a failing durable write
completes without error (`saveQueue` swallows the failure), leaves the
durable store empty — and the message, held only in memory, is even submitted
by the triggered `processQueue`.  So the enqueue did not fail and the message
was considered sent despite the persistence failure. -/
theorem addToQueue_swallows_write_failure :
    MessageQueue.addToQueue q0 ⟨[], false, []⟩ false true (fun _ => true)
      = (⟨[], false, []⟩, [q0]) := by
  decide

/-- C6 amended: `OfflineStorage.storeMessage` propagates a durable-write
failure to its caller (the enqueue call fails), but `MessageQueue.addToQueue`
does not — `saveQueue` catches the failure, the call completes, and the
durable copy of the queue is left unchanged. -/
theorem enqueue_write_failure_behavior (m : Message)
    (read : Except Unit (Option (List Message))) (qm : QueuedMessage)
    (st : MQState) (online : Bool) (sendOk : QueuedMessage → Bool) :
    OfflineStorage.storeMessage m read false = Except.error () ∧
      (MessageQueue.addToQueue qm st false online sendOk).1.stored
        = st.stored := by
  constructor
  · rfl
  · unfold MessageQueue.addToQueue MessageQueue.saveQueue
    simp only [Bool.false_eq_true, if_false]
    exact processQueue_stored_false sendOk online _

/-- C9 counterexample: with `retryAttempts = 4`, `retryDelay = 1000` and
every attempt failing retryably, `withRetry` sleeps `[1000, 2000, 3000]` —
deterministic (no jitter), uncapped, and the delay after the third failure is
`3000`, not the `1000 * 2 ^ 2 = 4000` that exponential growth would give. -/
theorem withRetry_backoff_not_exponential :
    (ErrorHandling.withRetry (fun _ => (Except.error "e" : Except String Unit))
          4 1000 (fun _ => true)).2 = [1000, 2000, 3000] ∧
      1000 * 2 ^ 2 = 4000 ∧ (3000 : Nat) ≠ 4000 := by
  decide

/-- C9 amended: for an entry failing repeatedly, the successive retry delays
strictly increase (given a positive base delay), but linearly — the delay
after the failure of attempt `k` is `retryDelay * (k + 1)` — with no
exponential growth, no cap and no jitter. -/
theorem withRetry_backoff_linear_increasing (n d : Nat) (hd : 0 < d) :
    (ErrorHandling.withRetry (fun _ => (Except.error "e" : Except String Unit))
          n d (fun _ => true)).2
        = (List.range' 1 (n - 1)).map (fun k => d * k) ∧
      List.Pairwise (· < ·)
        ((ErrorHandling.withRetry (fun _ => (Except.error "e" : Except String Unit))
            n d (fun _ => true)).2) := by
  have h := withRetryGo_sleeps d n 0
  refine ⟨by simpa using h, ?_⟩
  rw [ErrorHandling.withRetry, h]
  simp only [Nat.zero_add]
  exact List.Pairwise.map _ (fun a b hab => mul_lt_mul_of_pos_left hab hd)
    (List.pairwise_lt_range' 1 (n - 1))

/-- Witness for the amended C9 at a concrete input. -/
theorem withRetry_backoff_linear_increasing_witness :
    0 < 1000 ∧
      ((ErrorHandling.withRetry (fun _ => (Except.error "e" : Except String Unit))
            4 1000 (fun _ => true)).2
          = (List.range' 1 (4 - 1)).map (fun k => 1000 * k) ∧
        List.Pairwise (· < ·)
          ((ErrorHandling.withRetry (fun _ => (Except.error "e" : Except String Unit))
              4 1000 (fun _ => true)).2)) :=
  ⟨by decide, withRetry_backoff_linear_increasing 4 1000 (by decide)⟩
